import Mathlib

/-!
# Light sampling and intersection of `Hd_USTC_CG_Light` (light.cpp)

A shallow embedding of `Hd_USTC_CG_Light::Sample` and
`Hd_USTC_CG_Light::Intersect`.

Modelling conventions.

* Finite `float`/`double` values are exact rationals; rounding is not modelled.
* A division whose divisor is zero has no finite value (IEEE gives an infinity
  or a NaN, and every later product or quotient with a finite operand stays
  non-finite).  Such a value is `none`; a finite value `q` is `some q`.
* Output reference parameters (`dir`, `sample_light_pdf`, `depth`) are passed
  in with the caller's value and handed back in the result record.
* The uniform supplier `uniform_float` is a stream indexed by the number of
  calls made so far; the count is threaded through `Sample`.
* Functions whose code is not part of light.cpp (`GetLength`, `GetNormalized`,
  `constructONB`, `UniformSampleHemiSphere`, `GfRay::Intersect`) are fields of
  the parameter record `Externals`.
* Flowing off the end of a value-returning function yields no value: `none`.
-/

namespace USTC_CG

/-! ## Vectors and matrices -/

/-- Three-component vector (`GfVec3f`, `GfVec3d`, `Color`). -/
structure GfVec3f where
  x : ℚ
  y : ℚ
  z : ℚ
deriving DecidableEq

/-- Four-component vector (`GfVec4f`). -/
structure GfVec4f where
  x : ℚ
  y : ℚ
  z : ℚ
  w : ℚ
deriving DecidableEq

/-- Row-major 3×3 matrix (`GfMatrix3f`). -/
structure GfMatrix3f where
  r0 : GfVec3f
  r1 : GfVec3f
  r2 : GfVec3f
deriving DecidableEq

namespace GfVec3f

/-- Component-wise sum `a + b`. -/
def add (a b : GfVec3f) : GfVec3f := ⟨a.x + b.x, a.y + b.y, a.z + b.z⟩

/-- Component-wise difference `a - b`. -/
def sub (a b : GfVec3f) : GfVec3f := ⟨a.x - b.x, a.y - b.y, a.z - b.z⟩

/-- Unary minus `-a`. -/
def neg (a : GfVec3f) : GfVec3f := ⟨-a.x, -a.y, -a.z⟩

/-- Product with a scalar, `a * s`. -/
def smul (a : GfVec3f) (s : ℚ) : GfVec3f := ⟨a.x * s, a.y * s, a.z * s⟩

/-- Quotient by a scalar, `a / s`; not finite when `s` is zero. -/
def sdiv (a : GfVec3f) (s : ℚ) : Option GfVec3f :=
  if s = 0 then none else some ⟨a.x / s, a.y / s, a.z / s⟩

/-- The vector with all three components equal to `s` (`Color{ s }`). -/
def splat (s : ℚ) : GfVec3f := ⟨s, s, s⟩

instance : Add GfVec3f := ⟨add⟩
instance : Sub GfVec3f := ⟨sub⟩
instance : Neg GfVec3f := ⟨neg⟩
instance : HMul GfVec3f ℚ GfVec3f := ⟨smul⟩

end GfVec3f

/-- Inner product `GfDot(a, b)`. -/
def GfDot (a b : GfVec3f) : ℚ := a.x * b.x + a.y * b.y + a.z * b.z

/-- Matrix times column vector, `m * v`. -/
def GfMatrix3f.mulVec (m : GfMatrix3f) (v : GfVec3f) : GfVec3f :=
  ⟨GfDot m.r0 v, GfDot m.r1 v, GfDot m.r2 v⟩

instance : HMul GfMatrix3f GfVec3f GfVec3f := ⟨GfMatrix3f.mulVec⟩

/-- Scalar quotient `a / b`; not finite when `b` is zero. -/
def fdiv (a b : ℚ) : Option ℚ := if b = 0 then none else some (a / b)

/-- The constant `M_PI` of the C library: the `double` nearest to π. -/
def M_PI : ℚ := 884279719003555 / 281474976710656

/-! ## Light descriptor -/

/-- The prim type tokens `_lightType` is compared against in light.cpp. -/
inductive LightType where
  | simpleLight
  | domeLight
  | rectLight
  | diskLight
  | distantLight
  | sphereLight
deriving DecidableEq

/-- The fields of `GlfSimpleLight` read by `Sample` and `Intersect`. -/
structure GlfSimpleLight where
  position : GfVec4f
  diffuse : GfVec4f

/-- The cached state of a `Hd_USTC_CG_Light`: its type token and the
entries `params` and `radius` of `_params`. -/
structure Hd_USTC_CG_Light where
  _lightType : LightType
  params : GlfSimpleLight
  radius : ℚ

/-- A ray (`GfRay`): start point and direction. -/
structure GfRay where
  startPoint : GfVec3f
  direction : GfVec3f

/-- The functions called by light.cpp whose code lies outside it.
`GfRay_Intersect ray center radius e` returns the boolean result of
`ray.Intersect(center, radius, &enterdistance)` together with the content of
`enterdistance` after the call, `e` being its content before. -/
structure Externals where
  GetLength : GfVec3f → ℚ
  GetNormalized : GfVec3f → GfVec3f
  constructONB : GfVec3f → GfMatrix3f
  UniformSampleHemiSphere : ℚ → ℚ → GfVec3f × ℚ
  GfRay_Intersect : GfRay → GfVec3f → ℚ → ℚ → Bool × ℚ

/-! ## Sample -/

/-- What a call of `Sample` leaves behind: the returned colour, the contents
of the reference parameters `dir` and `sample_light_pdf`, and the number of
calls made to `uniform_float` so far. -/
structure SampleResult where
  color : Option GfVec3f
  dir : GfVec3f
  sample_light_pdf : Option ℚ
  calls : ℕ

/-- Embedding of `Hd_USTC_CG_Light::Sample` (light.cpp lines 176-228).
The two calls of `uniform_float` inside `GfVec2f(...)` are taken in textual
order.  `light.params` and `light.radius` are the values `Get` finds under
the tokens `params` and `radius`. -/
def Sample (ext : Externals) (light : Hd_USTC_CG_Light) (pos : GfVec3f)
    (dir : GfVec3f) (sample_light_pdf : Option ℚ)
    (uniform_float : ℕ → ℚ) (calls : ℕ) : SampleResult :=
  if light._lightType = LightType.sphereLight then
    let simplelight := light.params
    let radius := light.radius
    let lightPos := simplelight.position
    let lightPos3 : GfVec3f := ⟨lightPos.x, lightPos.y, lightPos.z⟩
    let distanceVec := lightPos3 - pos
    let basis := ext.constructONB (-(ext.GetNormalized distanceVec))
    let distance := ext.GetLength distanceVec
    let sampled := ext.UniformSampleHemiSphere (uniform_float calls) (uniform_float (calls + 1))
    let sampledDir := sampled.1
    let sample_pos_pdf := sampled.2
    let worldSampledDir := basis * sampledDir
    let sampledPosOnSurface := worldSampledDir * radius + lightPos3
    let dir := ext.GetNormalized (sampledPosOnSurface - pos)
    let cosVal := GfDot (-dir) (ext.GetNormalized worldSampledDir)
    let area := 4 * M_PI * radius * radius
    let sample_light_pdf :=
      (((fdiv sample_pos_pdf radius).bind fun a => fdiv a radius).bind
        fun b => fdiv (b * cosVal) distance).bind fun c => fdiv c distance
    let powerIntotal4 := simplelight.diffuse
    let powerIntotal : GfVec3f := ⟨powerIntotal4.x, powerIntotal4.y, powerIntotal4.z⟩
    let irradiance := powerIntotal.sdiv area
    if cosVal < 0 then
      { color := some (GfVec3f.splat 0), dir := dir,
        sample_light_pdf := sample_light_pdf, calls := calls + 2 }
    else
      { color :=
          ((irradiance.bind fun i => (i * cosVal).sdiv distance).bind
            fun v => v.sdiv distance).bind fun v => v.sdiv M_PI,
        dir := dir, sample_light_pdf := sample_light_pdf, calls := calls + 2 }
  else
    { color := some ⟨1, 0, 1⟩, dir := dir,
      sample_light_pdf := sample_light_pdf, calls := calls }

/-! ## Intersect -/

/-- What a call of `Intersect` leaves behind: the returned value (`none` when
control leaves the function without a return statement) and the content of
the reference parameter `depth`. -/
structure IntersectResult where
  ret : Option Bool
  depth : ℚ

/-- Embedding of `Hd_USTC_CG_Light::Intersect` (light.cpp lines 230-243).
The returned value is the boolean `true` the code returns, before its
conversion to the declared return type.  `enterdistance` is the
indeterminate initial content of the local of that name. -/
def Intersect (ext : Externals) (light : Hd_USTC_CG_Light) (ray : GfRay)
    (depth : ℚ) (enterdistance : ℚ) : IntersectResult :=
  if light._lightType = LightType.sphereLight then
    let simplelight := light.params
    let radius := light.radius
    let lightPos := simplelight.position
    let lightPos3 : GfVec3f := ⟨lightPos.x, lightPos.y, lightPos.z⟩
    let enterdistance := (ext.GfRay_Intersect ray lightPos3 radius enterdistance).2
    { ret := some true, depth := enterdistance }
  else
    { ret := none, depth := depth }

/-! ## A reference instance of the external functions

The functions below are exact wherever the square roots involved are
rational.  They serve to evaluate `Sample` and `Intersect` at concrete inputs;
the model of `GfRay::Intersect` also decides what `Intersect` writes to
`depth`, which light.cpp only copies. -/

/-- The constant `GF_MIN_VECTOR_LENGTH` below which `GetNormalized` divides
by the constant instead of the length. -/
def GF_MIN_VECTOR_LENGTH : ℚ := 1 / 10000000000

/-- Reference `GfVec3f::GetLength`: the square root of the squared length,
exact when that is the square of a rational. -/
def refGetLength (v : GfVec3f) : ℚ := Rat.sqrt (GfDot v v)

/-- Reference `GfVec3f::GetNormalized`: the vector scaled by the inverse of
its length, or of `GF_MIN_VECTOR_LENGTH` for a shorter vector. -/
def refGetNormalized (v : GfVec3f) : GfVec3f :=
  v * (1 / (if GF_MIN_VECTOR_LENGTH < refGetLength v then refGetLength v
    else GF_MIN_VECTOR_LENGTH))

/-- Modelled from the spec: `constructONB` of utils/math.hpp is missing.
Section 4.1 asks for three mutually orthogonal unit vectors, the third equal
to the input `n`; they are the columns of the matrix built here by the
branch-free construction that divides by `sign + n.z`, never zero for a unit
`n`. -/
def refConstructONB (n : GfVec3f) : GfMatrix3f :=
  let sign : ℚ := if 0 ≤ n.z then 1 else -1
  let a := -1 / (sign + n.z)
  let b := n.x * n.y * a
  { r0 := ⟨1 + sign * n.x * n.x * a, b, n.x⟩
    r1 := ⟨sign * b, sign + n.y * n.y * a, n.y⟩
    r2 := ⟨-sign * n.x, -n.y, n.z⟩ }

/-- Modelled from the spec: `UniformSampleHemiSphere` of utils/sampling.hpp is
missing.  Section 4.2 fixes its pdf at `1/(2π)` and its direction as a unit
vector with `z ≥ 0`.  This stand-in meets both on the arc of azimuth 0, which
it parametrises rationally by the second input; it does not model the
distribution of the directions. -/
def refUniformSampleHemiSphere (_u0 u1 : ℚ) : GfVec3f × ℚ :=
  (⟨2 * u1 / (1 + u1 * u1), 0, (1 - u1 * u1) / (1 + u1 * u1)⟩, 1 / (2 * M_PI))

/-- The coefficient of `t²` in the ray-sphere equation
`|startPoint + t * direction - center|² = radius²`. -/
def sphereQuadA (ray : GfRay) : ℚ := GfDot ray.direction ray.direction

/-- The coefficient of `t` in the ray-sphere equation. -/
def sphereQuadB (ray : GfRay) (center : GfVec3f) : ℚ :=
  2 * GfDot (ray.startPoint - center) ray.direction

/-- The constant coefficient of the ray-sphere equation. -/
def sphereQuadC (ray : GfRay) (center : GfVec3f) (radius : ℚ) : ℚ :=
  GfDot (ray.startPoint - center) (ray.startPoint - center) - radius * radius

/-- The discriminant `b² - 4ac` of the ray-sphere equation. -/
def sphereDisc (ray : GfRay) (center : GfVec3f) (radius : ℚ) : ℚ :=
  sphereQuadB ray center * sphereQuadB ray center -
    4 * sphereQuadA ray * sphereQuadC ray center radius

/-- Modelled from the spec: `GfRay::Intersect(center, radius, &enterdistance)`
is not part of the sources.  Section 4.4 describes it as the standard
ray-sphere intersection selecting the nearest non-negative root, no
intersection yielding a miss.  The model solves the quadratic
`a t² + b t + c = 0`; on a hit it returns `true` and the nearest non-negative
root as the new content of `enterdistance`, on a miss `false` and the content
unchanged.  The square root is exact whenever the discriminant is the square
of a rational. -/
def refGfRay_Intersect (ray : GfRay) (center : GfVec3f) (radius : ℚ)
    (enterdistance : ℚ) : Bool × ℚ :=
  let a := sphereQuadA ray
  let b := sphereQuadB ray center
  let disc := sphereDisc ray center radius
  if a = 0 ∨ disc < 0 then (false, enterdistance)
  else
    let t0 := (-b - Rat.sqrt disc) / (2 * a)
    let t1 := (-b + Rat.sqrt disc) / (2 * a)
    if 0 ≤ t0 then (true, t0)
    else if 0 ≤ t1 then (true, t1)
    else (false, enterdistance)

/-- The reference instance of `Externals`. -/
def refExt : Externals where
  GetLength := refGetLength
  GetNormalized := refGetNormalized
  constructONB := refConstructONB
  UniformSampleHemiSphere := refUniformSampleHemiSphere
  GfRay_Intersect := refGfRay_Intersect

/-- A sphere light of radius 5 centred at the origin, with white diffuse colour. -/
def sphere5 : Hd_USTC_CG_Light where
  _lightType := LightType.sphereLight
  params := { position := ⟨0, 0, 0, 1⟩, diffuse := ⟨1, 1, 1, 0⟩ }
  radius := 5

/-- A sphere light of radius 3 centred at the origin, with white diffuse colour. -/
def sphere3 : Hd_USTC_CG_Light where
  _lightType := LightType.sphereLight
  params := { position := ⟨0, 0, 0, 1⟩, diffuse := ⟨1, 1, 1, 0⟩ }
  radius := 3

/-- A sphere light of radius 0 centred at the origin, with white diffuse colour. -/
def sphere0 : Hd_USTC_CG_Light where
  _lightType := LightType.sphereLight
  params := { position := ⟨0, 0, 0, 1⟩, diffuse := ⟨1, 1, 1, 0⟩ }
  radius := 0

/-- A rect light placed at the origin. -/
def rect0 : Hd_USTC_CG_Light where
  _lightType := LightType.rectLight
  params := { position := ⟨0, 0, 0, 1⟩, diffuse := ⟨1, 1, 1, 0⟩ }
  radius := 0

/-- The point `ray.startPoint + t * ray.direction` of a ray. -/
def GfRay.GetPoint (ray : GfRay) (t : ℚ) : GfVec3f :=
  ray.startPoint + ray.direction * t

/-- The parameter `t` solves the ray-sphere equation
`|ray(t) - center|² = radius²`. -/
def IsRoot (ray : GfRay) (center : GfVec3f) (radius t : ℚ) : Prop :=
  GfDot (ray.GetPoint t - center) (ray.GetPoint t - center) = radius * radius

/-- The parameter `t` is the nearest non-negative root of the ray-sphere
equation: the entry distance as section 4.4 of the specification words it. -/
def IsNearestRoot (ray : GfRay) (center : GfVec3f) (radius t : ℚ) : Prop :=
  0 ≤ t ∧ IsRoot ray center radius t ∧
    ∀ s : ℚ, 0 ≤ s → IsRoot ray center radius s → t ≤ s

/-- The columns of `m` are mutually orthogonal unit vectors: the contract
section 4.1 of the specification gives for the basis built by `constructONB`. -/
def IsOrthonormalBasis (m : GfMatrix3f) : Prop :=
  m.r0.x * m.r0.x + m.r1.x * m.r1.x + m.r2.x * m.r2.x = 1 ∧
  m.r0.y * m.r0.y + m.r1.y * m.r1.y + m.r2.y * m.r2.y = 1 ∧
  m.r0.z * m.r0.z + m.r1.z * m.r1.z + m.r2.z * m.r2.z = 1 ∧
  m.r0.x * m.r0.y + m.r1.x * m.r1.y + m.r2.x * m.r2.y = 0 ∧
  m.r0.x * m.r0.z + m.r1.x * m.r1.z + m.r2.x * m.r2.z = 0 ∧
  m.r0.y * m.r0.z + m.r1.y * m.r1.z + m.r2.y * m.r2.z = 0

/-! ## The locals of the sphere branch of `Sample`

Each definition below is the value of the local variable of the same name in
the sphere branch, as a function of the inputs it depends on. -/

/-- The local `lightPos3`: the first three components of the light position. -/
def lightPos3 (light : Hd_USTC_CG_Light) : GfVec3f :=
  ⟨light.params.position.x, light.params.position.y, light.params.position.z⟩

/-- The local `powerIntotal`: the first three components of the diffuse colour. -/
def powerIntotal (light : Hd_USTC_CG_Light) : GfVec3f :=
  ⟨light.params.diffuse.x, light.params.diffuse.y, light.params.diffuse.z⟩

/-- The local `distanceVec = lightPos3 - pos`. -/
def distanceVec (light : Hd_USTC_CG_Light) (pos : GfVec3f) : GfVec3f :=
  lightPos3 light - pos

/-- The local `distance = distanceVec.GetLength()`. -/
def distance (ext : Externals) (light : Hd_USTC_CG_Light) (pos : GfVec3f) : ℚ :=
  ext.GetLength (distanceVec light pos)

/-- The local `sample_pos_pdf` written by `UniformSampleHemiSphere`. -/
def sample_pos_pdf (ext : Externals) (u0 u1 : ℚ) : ℚ :=
  (ext.UniformSampleHemiSphere u0 u1).2

/-- The local `worldSampledDir = basis * sampledDir`. -/
def worldSampledDir (ext : Externals) (light : Hd_USTC_CG_Light) (pos : GfVec3f)
    (u0 u1 : ℚ) : GfVec3f :=
  ext.constructONB (-(ext.GetNormalized (distanceVec light pos))) *
    (ext.UniformSampleHemiSphere u0 u1).1

/-- The value assigned to `dir`:
`(worldSampledDir * radius + lightPos3 - pos).GetNormalized()`. -/
def sampledDirection (ext : Externals) (light : Hd_USTC_CG_Light) (pos : GfVec3f)
    (u0 u1 : ℚ) : GfVec3f :=
  ext.GetNormalized (worldSampledDir ext light pos u0 u1 * light.radius + lightPos3 light - pos)

/-- The local `cosVal = GfDot(-dir, worldSampledDir.GetNormalized())`. -/
def cosVal (ext : Externals) (light : Hd_USTC_CG_Light) (pos : GfVec3f)
    (u0 u1 : ℚ) : ℚ :=
  GfDot (-(sampledDirection ext light pos u0 u1))
    (ext.GetNormalized (worldSampledDir ext light pos u0 u1))

/-! ## Basic facts -/

@[simp] theorem GfVec3f.add_def (a b : GfVec3f) :
    a + b = ⟨a.x + b.x, a.y + b.y, a.z + b.z⟩ := rfl

@[simp] theorem GfVec3f.sub_def (a b : GfVec3f) :
    a - b = ⟨a.x - b.x, a.y - b.y, a.z - b.z⟩ := rfl

@[simp] theorem GfVec3f.neg_def (a : GfVec3f) : -a = ⟨-a.x, -a.y, -a.z⟩ := rfl

@[simp] theorem GfVec3f.smul_def (a : GfVec3f) (s : ℚ) :
    a * s = ⟨a.x * s, a.y * s, a.z * s⟩ := rfl

@[simp] theorem GfMatrix3f.mulVec_def (m : GfMatrix3f) (v : GfVec3f) :
    m * v = ⟨GfDot m.r0 v, GfDot m.r1 v, GfDot m.r2 v⟩ := rfl

theorem fdiv_of_ne {a b : ℚ} (hb : b ≠ 0) : fdiv a b = some (a / b) := by
  simp [fdiv, hb]

theorem fdiv_zero (a : ℚ) : fdiv a 0 = none := by
  simp [fdiv]

theorem sdiv_of_ne {v : GfVec3f} {s : ℚ} (hs : s ≠ 0) :
    v.sdiv s = some ⟨v.x / s, v.y / s, v.z / s⟩ := by
  simp [GfVec3f.sdiv, hs]

theorem sdiv_zero (v : GfVec3f) : v.sdiv 0 = none := by
  simp [GfVec3f.sdiv]

/-- The source expression `p / r / r * c / d / d` in the squared form. -/
theorem pdf_expr_eq (p r c d : ℚ) : p / r / r * c / d / d = p / r ^ 2 * c / d ^ 2 := by
  rw [div_div, div_div, sq, sq]

/-- The reference `GetNormalized` returns a unit vector unchanged. -/
theorem refGetNormalized_unit (v : GfVec3f) (h : GfDot v v = 1) : refGetNormalized v = v := by
  cases v
  norm_num [refGetNormalized, refGetLength, h, Rat.sqrt, GF_MIN_VECTOR_LENGTH]

/-- The sphere branch of `Intersect`, in terms of `lightPos3`. -/
theorem Intersect_sphere_eq (ext : Externals) (light : Hd_USTC_CG_Light)
    (ray : GfRay) (depth enterdistance : ℚ)
    (hs : light._lightType = LightType.sphereLight) :
    Intersect ext light ray depth enterdistance =
      { ret := some true,
        depth := (ext.GfRay_Intersect ray (lightPos3 light) light.radius enterdistance).2 } := by
  unfold Intersect
  rw [if_pos hs]
  rfl

/-- A basis with orthonormal columns maps a unit vector to a unit vector, so
`worldSampledDir` is a unit vector whenever `constructONB` and
`UniformSampleHemiSphere` meet their contracts. -/
theorem mulVec_unit (m : GfMatrix3f) (v : GfVec3f) (hm : IsOrthonormalBasis m)
    (hv : GfDot v v = 1) : GfDot (m * v) (m * v) = 1 := by
  obtain ⟨h0, h1, h2, h01, h02, h12⟩ := hm
  simp only [GfMatrix3f.mulVec_def, GfDot] at hv ⊢
  linear_combination v.x ^ 2 * h0 + v.y ^ 2 * h1 + v.z ^ 2 * h2 + 2 * v.x * v.y * h01 +
    2 * v.x * v.z * h02 + 2 * v.y * v.z * h12 + hv

/-- The identities behind the branch-free basis: with `s² = 1` and
`a * (s + z) = -1` the three columns are orthonormal for a unit `(x, y, z)`. -/
theorem onb_identities (x y z s a : ℚ) (hn : x * x + y * y + z * z = 1) (hs : s * s = 1)
    (ha : a * (s + z) = -1) :
    IsOrthonormalBasis
      { r0 := ⟨1 + s * x * x * a, x * y * a, x⟩
        r1 := ⟨s * (x * y * a), s + y * y * a, y⟩
        r2 := ⟨-s * x, -y, z⟩ } := by
  have hk : a * (x * x + y * y) = z - s := by
    linear_combination a * hn + (s - z) * ha - a * hs
  refine ⟨?_, ?_, ?_, ?_, ?_, ?_⟩
  · show (1 + s * x * x * a) * (1 + s * x * x * a) + s * (x * y * a) * (s * (x * y * a)) +
      -s * x * (-s * x) = 1
    linear_combination (s ^ 2 * x ^ 2 * a) * hk + (x ^ 2 * a * z - s * x ^ 2 * a + x ^ 2) * hs +
      x ^ 2 * ha
  · show x * y * a * (x * y * a) + (s + y * y * a) * (s + y * y * a) + -y * -y = 1
    linear_combination (y ^ 2 * a) * hk + y ^ 2 * ha + hs
  · show x * x + y * y + z * z = 1
    exact hn
  · show (1 + s * x * x * a) * (x * y * a) + s * (x * y * a) * (s + y * y * a) +
      -s * x * -y = 0
    linear_combination (s * (x * y * a)) * hk + (s * x * y) * ha - (x * y * a) * hs
  · show (1 + s * x * x * a) * x + s * (x * y * a) * y + -s * x * z = 0
    linear_combination (s * x) * hk - x * hs
  · show x * y * a * x + (s + y * y * a) * y + -y * z = 0
    linear_combination y * hk

/-- The reference `constructONB` meets the contract of section 4.1 on every
unit vector: orthonormal columns, the third of them the input. -/
theorem refConstructONB_orthonormal (n : GfVec3f) (hn : GfDot n n = 1) :
    IsOrthonormalBasis (refConstructONB n) ∧
      refConstructONB n * (⟨0, 0, 1⟩ : GfVec3f) = n := by
  obtain ⟨x, y, z⟩ := n
  simp only [GfDot] at hn
  constructor
  · by_cases hz : 0 ≤ z
    · have hne : (1 : ℚ) + z ≠ 0 := by linarith
      have ha : -1 / (1 + z) * (1 + z) = -1 := div_mul_cancel₀ _ hne
      simpa [refConstructONB, hz] using onb_identities x y z 1 (-1 / (1 + z)) hn (by norm_num) ha
    · have hne : (-1 : ℚ) + z ≠ 0 := by
        have : z < 0 := not_le.mp hz
        linarith
      have ha : -1 / (-1 + z) * (-1 + z) = -1 := div_mul_cancel₀ _ hne
      simpa [refConstructONB, hz] using
        onb_identities x y z (-1) (-1 / (-1 + z)) hn (by norm_num) ha
  · simp [refConstructONB, GfDot]

/-- The reference `UniformSampleHemiSphere` meets the contract of section 4.2
on inputs in [0,1): a unit direction with `z ≥ 0` and the pdf `1/(2π)`. -/
theorem refUniformSampleHemiSphere_contract (u0 u1 : ℚ) :
    GfDot (refUniformSampleHemiSphere u0 u1).1 (refUniformSampleHemiSphere u0 u1).1 = 1 ∧
      (0 ≤ u1 → u1 < 1 → 0 ≤ (refUniformSampleHemiSphere u0 u1).1.z) ∧
      (refUniformSampleHemiSphere u0 u1).2 = 1 / (2 * M_PI) := by
  have hpos : (0 : ℚ) < 1 + u1 * u1 := by nlinarith [mul_self_nonneg u1]
  have hne : (1 : ℚ) + u1 * u1 ≠ 0 := ne_of_gt hpos
  refine ⟨?_, ?_, rfl⟩
  · simp only [refUniformSampleHemiSphere, GfDot]
    field_simp
    ring
  · intro h0 h1
    simp only [refUniformSampleHemiSphere]
    apply div_nonneg _ (le_of_lt hpos)
    nlinarith

/-- A parameter solves the ray-sphere equation exactly when it is a root of
the quadratic `a t² + b t + c`. -/
theorem isRoot_iff_quad (ray : GfRay) (center : GfVec3f) (radius t : ℚ) :
    IsRoot ray center radius t ↔
      sphereQuadA ray * t * t + sphereQuadB ray center * t +
        sphereQuadC ray center radius = 0 := by
  simp only [IsRoot, GfRay.GetPoint, sphereQuadA, sphereQuadB, sphereQuadC, GfDot,
    GfVec3f.add_def, GfVec3f.sub_def, GfVec3f.smul_def]
  constructor <;> intro h <;> linear_combination h

/-- The roots of `a u² + b u + c` when `s` is a square root of the
discriminant and `a > 0`. -/
theorem quad_roots (a b c s u : ℚ) (ha : 0 < a) (hs : s * s = b * b - 4 * a * c) :
    a * u * u + b * u + c = 0 ↔ u = (-b - s) / (2 * a) ∨ u = (-b + s) / (2 * a) := by
  have h2a : (2 : ℚ) * a ≠ 0 := by positivity
  constructor
  · intro h
    have hprod : (2 * a * u + b + s) * (2 * a * u + b - s) = 0 := by
      linear_combination (4 * a) * h - hs
    rcases mul_eq_zero.mp hprod with h1 | h1
    · left
      rw [eq_div_iff h2a]
      linarith
    · right
      rw [eq_div_iff h2a]
      linarith
  · intro h
    have h4a : (4 : ℚ) * a ≠ 0 := by positivity
    have hq : 4 * a * (a * u * u + b * u + c) = 0 := by
      rcases h with h | h
      · rw [eq_div_iff h2a] at h
        have h1 : 2 * a * u + b + s = 0 := by linarith
        linear_combination (2 * a * u + b - s) * h1 + hs
      · rw [eq_div_iff h2a] at h
        have h1 : 2 * a * u + b - s = 0 := by linarith
        linear_combination (2 * a * u + b + s) * h1 + hs
    rcases mul_eq_zero.mp hq with h1 | h1
    · exact absurd h1 h4a
    · exact h1

/-- The model of `GfRay::Intersect` meets the contract of section 4.4 for
every ray of non-zero direction whose discriminant has an exact square root:
on a hit it writes the nearest non-negative root of the ray-sphere equation,
and on a miss it writes nothing and the equation has no non-negative root. -/
theorem refGfRay_Intersect_contract (ray : GfRay) (center : GfVec3f) (radius e : ℚ)
    (ha : sphereQuadA ray ≠ 0)
    (hsq : 0 ≤ sphereDisc ray center radius →
      Rat.sqrt (sphereDisc ray center radius) * Rat.sqrt (sphereDisc ray center radius) =
        sphereDisc ray center radius) :
    ((refGfRay_Intersect ray center radius e).1 = true →
        IsNearestRoot ray center radius (refGfRay_Intersect ray center radius e).2) ∧
      ((refGfRay_Intersect ray center radius e).1 = false →
        (refGfRay_Intersect ray center radius e).2 = e ∧
          ∀ t : ℚ, 0 ≤ t → ¬ IsRoot ray center radius t) := by
  have hapos : 0 < sphereQuadA ray := by
    have h0 : 0 ≤ sphereQuadA ray := by
      simp only [sphereQuadA, GfDot]
      nlinarith [mul_self_nonneg ray.direction.x, mul_self_nonneg ray.direction.y,
        mul_self_nonneg ray.direction.z]
    exact lt_of_le_of_ne h0 (Ne.symm ha)
  have h2a : (0 : ℚ) < 2 * sphereQuadA ray := by positivity
  by_cases hd : sphereDisc ray center radius < 0
  · have hval : refGfRay_Intersect ray center radius e = (false, e) := by
      simp only [refGfRay_Intersect]
      rw [if_pos (Or.inr hd)]
    rw [hval]
    refine ⟨fun h => by simp at h, fun _ => ⟨rfl, ?_⟩⟩
    intro t _ hroot
    have hq := (isRoot_iff_quad ray center radius t).mp hroot
    have hsquare : sphereDisc ray center radius =
        (2 * sphereQuadA ray * t + sphereQuadB ray center) ^ 2 := by
      unfold sphereDisc
      linear_combination (-4 * sphereQuadA ray) * hq
    have := sq_nonneg (2 * sphereQuadA ray * t + sphereQuadB ray center)
    linarith
  · have hd0 : 0 ≤ sphereDisc ray center radius := not_lt.mp hd
    have hs := hsq hd0
    have hs0 : 0 ≤ Rat.sqrt (sphereDisc ray center radius) := Rat.sqrt_nonneg _
    have hroots : ∀ u : ℚ, IsRoot ray center radius u ↔
        u = (-sphereQuadB ray center - Rat.sqrt (sphereDisc ray center radius)) /
            (2 * sphereQuadA ray) ∨
          u = (-sphereQuadB ray center + Rat.sqrt (sphereDisc ray center radius)) /
            (2 * sphereQuadA ray) := by
      intro u
      rw [isRoot_iff_quad]
      exact quad_roots _ _ _ _ u hapos hs
    have h01 : (-sphereQuadB ray center - Rat.sqrt (sphereDisc ray center radius)) /
          (2 * sphereQuadA ray) ≤
        (-sphereQuadB ray center + Rat.sqrt (sphereDisc ray center radius)) /
          (2 * sphereQuadA ray) :=
      div_le_div_of_nonneg_right (by linarith) (le_of_lt h2a)
    have hcond : ¬ (sphereQuadA ray = 0 ∨ sphereDisc ray center radius < 0) := by
      rintro (h | h)
      · exact ha h
      · exact hd h
    by_cases h0 : 0 ≤ (-sphereQuadB ray center - Rat.sqrt (sphereDisc ray center radius)) /
        (2 * sphereQuadA ray)
    · have hval : refGfRay_Intersect ray center radius e =
          (true, (-sphereQuadB ray center - Rat.sqrt (sphereDisc ray center radius)) /
            (2 * sphereQuadA ray)) := by
        simp only [refGfRay_Intersect]
        rw [if_neg hcond, if_pos h0]
      rw [hval]
      refine ⟨fun _ => ⟨h0, (hroots _).mpr (Or.inl rfl), ?_⟩, fun h => by simp at h⟩
      intro u _ hu
      rcases (hroots u).mp hu with h | h
      · rw [h]
      · rw [h]; exact h01
    · by_cases h1 : 0 ≤ (-sphereQuadB ray center + Rat.sqrt (sphereDisc ray center radius)) /
          (2 * sphereQuadA ray)
      · have hval : refGfRay_Intersect ray center radius e =
            (true, (-sphereQuadB ray center + Rat.sqrt (sphereDisc ray center radius)) /
              (2 * sphereQuadA ray)) := by
          simp only [refGfRay_Intersect]
          rw [if_neg hcond, if_neg h0, if_pos h1]
        rw [hval]
        refine ⟨fun _ => ⟨h1, (hroots _).mpr (Or.inr rfl), ?_⟩, fun h => by simp at h⟩
        intro u hu0 hu
        rcases (hroots u).mp hu with h | h
        · exact absurd (h ▸ hu0) h0
        · rw [h]
      · have hval : refGfRay_Intersect ray center radius e = (false, e) := by
          simp only [refGfRay_Intersect]
          rw [if_neg hcond, if_neg h0, if_neg h1]
        rw [hval]
        refine ⟨fun h => by simp at h, fun _ => ⟨rfl, ?_⟩⟩
        intro u hu0 hu
        rcases (hroots u).mp hu with h | h
        · exact h0 (h ▸ hu0)
        · exact h1 (h ▸ hu0)

theorem M_PI_pos : 0 < M_PI := by
  norm_num [M_PI]

/-- The pdf written by the sphere branch, in terms of the locals. -/
theorem Sample_sphere_pdf (ext : Externals) (light : Hd_USTC_CG_Light) (pos dir : GfVec3f)
    (pdf : Option ℚ) (uniform_float : ℕ → ℚ) (calls : ℕ)
    (hs : light._lightType = LightType.sphereLight) :
    (Sample ext light pos dir pdf uniform_float calls).sample_light_pdf =
      (((fdiv (sample_pos_pdf ext (uniform_float calls) (uniform_float (calls + 1)))
            light.radius).bind fun a => fdiv a light.radius).bind
        fun b => fdiv (b * cosVal ext light pos (uniform_float calls) (uniform_float (calls + 1)))
          (distance ext light pos)).bind fun c => fdiv c (distance ext light pos) := by
  simp only [Sample, hs, if_true]
  split <;> rfl

/-- The colour returned by the sphere branch, in terms of the locals. -/
theorem Sample_sphere_color (ext : Externals) (light : Hd_USTC_CG_Light) (pos dir : GfVec3f)
    (pdf : Option ℚ) (uniform_float : ℕ → ℚ) (calls : ℕ)
    (hs : light._lightType = LightType.sphereLight) :
    (Sample ext light pos dir pdf uniform_float calls).color =
      if cosVal ext light pos (uniform_float calls) (uniform_float (calls + 1)) < 0 then
        some (GfVec3f.splat 0)
      else
        ((((powerIntotal light).sdiv (4 * M_PI * light.radius * light.radius)).bind
          fun i => (i * cosVal ext light pos (uniform_float calls)
            (uniform_float (calls + 1))).sdiv (distance ext light pos)).bind
          fun v => v.sdiv (distance ext light pos)).bind fun v => v.sdiv M_PI := by
  unfold Sample
  rw [if_pos hs]
  show (if cosVal ext light pos (uniform_float calls) (uniform_float (calls + 1)) < 0
    then (_ : SampleResult) else _).color = _
  by_cases h : cosVal ext light pos (uniform_float calls) (uniform_float (calls + 1)) < 0
  · rw [if_pos h, if_pos h]
  · rw [if_neg h, if_neg h]; rfl

/-- The direction written by the sphere branch, and the supplier calls made. -/
theorem Sample_sphere_dir (ext : Externals) (light : Hd_USTC_CG_Light) (pos dir : GfVec3f)
    (pdf : Option ℚ) (uniform_float : ℕ → ℚ) (calls : ℕ)
    (hs : light._lightType = LightType.sphereLight) :
    (Sample ext light pos dir pdf uniform_float calls).dir =
        sampledDirection ext light pos (uniform_float calls) (uniform_float (calls + 1)) ∧
      (Sample ext light pos dir pdf uniform_float calls).calls = calls + 2 := by
  simp only [Sample, hs, if_true]
  split <;> exact ⟨rfl, rfl⟩

/-- With non-zero radius and distance no division by zero is reached and
the pdf written is the finite value of the source expression. -/
theorem Sample_sphere_pdf_finite (ext : Externals) (light : Hd_USTC_CG_Light)
    (pos dir : GfVec3f) (pdf : Option ℚ) (uniform_float : ℕ → ℚ) (calls : ℕ)
    (hs : light._lightType = LightType.sphereLight)
    (hr : light.radius ≠ 0) (hd : distance ext light pos ≠ 0) :
    (Sample ext light pos dir pdf uniform_float calls).sample_light_pdf =
      some (sample_pos_pdf ext (uniform_float calls) (uniform_float (calls + 1)) /
        light.radius / light.radius *
        cosVal ext light pos (uniform_float calls) (uniform_float (calls + 1)) /
        distance ext light pos / distance ext light pos) := by
  rw [Sample_sphere_pdf ext light pos dir pdf uniform_float calls hs]
  simp [fdiv_of_ne hr, fdiv_of_ne hd]

/-- With non-zero radius and distance and a non-negative `cosVal` the
returned colour is the finite value of the source expression. -/
theorem Sample_sphere_color_finite (ext : Externals) (light : Hd_USTC_CG_Light)
    (pos dir : GfVec3f) (pdf : Option ℚ) (uniform_float : ℕ → ℚ) (calls : ℕ)
    (hs : light._lightType = LightType.sphereLight)
    (hr : light.radius ≠ 0) (hd : distance ext light pos ≠ 0)
    (hc : ¬ cosVal ext light pos (uniform_float calls) (uniform_float (calls + 1)) < 0) :
    (Sample ext light pos dir pdf uniform_float calls).color =
      some ⟨(powerIntotal light).x / (4 * M_PI * light.radius * light.radius) *
          cosVal ext light pos (uniform_float calls) (uniform_float (calls + 1)) /
          distance ext light pos / distance ext light pos / M_PI,
        (powerIntotal light).y / (4 * M_PI * light.radius * light.radius) *
          cosVal ext light pos (uniform_float calls) (uniform_float (calls + 1)) /
          distance ext light pos / distance ext light pos / M_PI,
        (powerIntotal light).z / (4 * M_PI * light.radius * light.radius) *
          cosVal ext light pos (uniform_float calls) (uniform_float (calls + 1)) /
          distance ext light pos / distance ext light pos / M_PI⟩ := by
  have hpi : M_PI ≠ 0 := ne_of_gt M_PI_pos
  have harea : 4 * M_PI * light.radius * light.radius ≠ 0 := by
    have h4 : (4 : ℚ) ≠ 0 := by norm_num
    exact mul_ne_zero (mul_ne_zero (mul_ne_zero h4 hpi) hr) hr
  rw [Sample_sphere_color ext light pos dir pdf uniform_float calls hs, if_neg hc]
  rw [sdiv_of_ne harea, Option.some_bind, sdiv_of_ne hd, Option.some_bind,
    sdiv_of_ne hd, Option.some_bind, sdiv_of_ne hpi]
  rfl

/-! ## Claims about `Sample` -/

/-- C1. The pdf that `Sample` writes is not always non-negative: for a sphere
light with radius > 0, a shading point at distance d > 0 and uniform inputs
whose hemisphere pdf is positive, a sampled surface point facing away from the
shading point (`cosVal < 0`) makes the written pdf a negative finite number. -/
theorem Sample_pdf_negative_of_backfacing (ext : Externals) (light : Hd_USTC_CG_Light)
    (pos dir : GfVec3f) (pdf : Option ℚ) (uniform_float : ℕ → ℚ) (calls : ℕ)
    (hs : light._lightType = LightType.sphereLight)
    (hr : 0 < light.radius) (hd : 0 < distance ext light pos)
    (hp : 0 < sample_pos_pdf ext (uniform_float calls) (uniform_float (calls + 1)))
    (hc : cosVal ext light pos (uniform_float calls) (uniform_float (calls + 1)) < 0) :
    ∃ q : ℚ, (Sample ext light pos dir pdf uniform_float calls).sample_light_pdf = some q ∧
      q < 0 := by
  refine ⟨_, Sample_sphere_pdf_finite ext light pos dir pdf uniform_float calls hs
    (ne_of_gt hr) (ne_of_gt hd), ?_⟩
  have h1 : 0 < sample_pos_pdf ext (uniform_float calls) (uniform_float (calls + 1)) /
      light.radius / light.radius := div_pos (div_pos hp hr) hr
  exact div_neg_of_neg_of_pos (div_neg_of_neg_of_pos (mul_neg_of_pos_of_neg h1 hc) hd) hd

/-- The shading point (0,0,6) outside the sphere light of radius 5, with
uniform inputs (1/2, 1/2): the sampled surface point is (4,0,3), `cosVal` is
-7/25 and the pdf written is negative. -/
theorem Sample_pdf_negative_of_backfacing_witness :
    cosVal refExt sphere5 ⟨0, 0, 6⟩ (1 / 2) (1 / 2) = -7 / 25 ∧
      ∃ q : ℚ, (Sample refExt sphere5 ⟨0, 0, 6⟩ ⟨0, 0, 0⟩ (some 0)
        (fun _ => 1 / 2) 0).sample_light_pdf = some q ∧ q < 0 := by
  have hc : cosVal refExt sphere5 ⟨0, 0, 6⟩ (1 / 2) (1 / 2) = -7 / 25 := by
    norm_num [cosVal, sampledDirection, worldSampledDir, distanceVec, lightPos3, refExt,
      sphere5, refGetLength, GfDot, Rat.sqrt, refGetNormalized, refConstructONB,
      refUniformSampleHemiSphere, GF_MIN_VECTOR_LENGTH]
  refine ⟨hc, Sample_pdf_negative_of_backfacing refExt sphere5 ⟨0, 0, 6⟩ ⟨0, 0, 0⟩ (some 0)
    (fun _ => 1 / 2) 0 rfl (by norm_num [sphere5]) ?_ ?_ ?_⟩
  · norm_num [distance, distanceVec, lightPos3, refExt, sphere5, refGetLength, GfDot, Rat.sqrt]
  · norm_num [sample_pos_pdf, refExt, refUniformSampleHemiSphere, M_PI]
  · rw [hc]; norm_num

/-- C4, as stated, fails: `Sample` has no degenerate-geometry guard.  For the
sphere light of radius 0 seen from (0,0,6), and for the sphere light of
radius 5 seen from its own centre (d = 0), the pdf computation divides by
zero: the pdf written is not the finite value 0, and the returned radiance
is not (0,0,0). -/
theorem Sample_degenerate_not_guarded :
    ¬ ((Sample refExt sphere0 ⟨0, 0, 6⟩ ⟨0, 0, 0⟩ (some 0) (fun _ => 1 / 2) 0).color =
          some ⟨0, 0, 0⟩ ∧
        (Sample refExt sphere0 ⟨0, 0, 6⟩ ⟨0, 0, 0⟩ (some 0) (fun _ => 1 / 2)
          0).sample_light_pdf = some 0) ∧
      ¬ ((Sample refExt sphere5 ⟨0, 0, 0⟩ ⟨0, 0, 0⟩ (some 0) (fun _ => 1 / 2) 0).color =
          some ⟨0, 0, 0⟩ ∧
        (Sample refExt sphere5 ⟨0, 0, 0⟩ ⟨0, 0, 0⟩ (some 0) (fun _ => 1 / 2)
          0).sample_light_pdf = some 0) := by
  constructor
  · rintro ⟨-, h⟩
    rw [Sample_sphere_pdf _ _ _ _ _ _ _ rfl] at h
    simp [sphere0, fdiv] at h
  · rintro ⟨-, h⟩
    rw [Sample_sphere_pdf _ _ _ _ _ _ _ rfl] at h
    have hd : distance refExt sphere5 ⟨0, 0, 0⟩ = 0 := by
      norm_num [distance, distanceVec, lightPos3, refExt, sphere5, refGetLength, GfDot,
        Rat.sqrt]
    rw [hd] at h
    simp [fdiv] at h

/-- C4, amended.  For every sphere light and shading point with radius = 0
or d = 0 and every pair of uniform inputs, `Sample` reaches a division by
zero when it computes the pdf, so the pdf written is not a finite number; the
returned radiance is (0,0,0) when `cosVal < 0` and is not finite otherwise. -/
theorem Sample_degenerate_divides_by_zero (ext : Externals) (light : Hd_USTC_CG_Light)
    (pos dir : GfVec3f) (pdf : Option ℚ) (uniform_float : ℕ → ℚ) (calls : ℕ)
    (hs : light._lightType = LightType.sphereLight)
    (hdeg : light.radius = 0 ∨ distance ext light pos = 0) :
    (Sample ext light pos dir pdf uniform_float calls).sample_light_pdf = none ∧
      (cosVal ext light pos (uniform_float calls) (uniform_float (calls + 1)) < 0 →
        (Sample ext light pos dir pdf uniform_float calls).color = some ⟨0, 0, 0⟩) ∧
      (¬ cosVal ext light pos (uniform_float calls) (uniform_float (calls + 1)) < 0 →
        (Sample ext light pos dir pdf uniform_float calls).color = none) := by
  refine ⟨?_, ?_, ?_⟩
  · rw [Sample_sphere_pdf ext light pos dir pdf uniform_float calls hs]
    rcases hdeg with h | h
    · rw [h, fdiv_zero]; rfl
    · rw [h]
      simp [fdiv_zero]
  · intro hc
    rw [Sample_sphere_color ext light pos dir pdf uniform_float calls hs, if_pos hc]
    rfl
  · intro hc
    rw [Sample_sphere_color ext light pos dir pdf uniform_float calls hs, if_neg hc]
    rcases hdeg with h | h
    · rw [h]
      simp [sdiv_zero]
    · rw [h]
      simp [sdiv_zero]

/-- The sphere light of radius 0 seen from (0,0,6): the pdf is not finite. -/
theorem Sample_degenerate_divides_by_zero_witness :
    (Sample refExt sphere0 ⟨0, 0, 6⟩ ⟨0, 0, 0⟩ (some 0) (fun _ => 1 / 2) 0).sample_light_pdf =
      none :=
  (Sample_degenerate_divides_by_zero refExt sphere0 ⟨0, 0, 6⟩ ⟨0, 0, 0⟩ (some 0)
    (fun _ => 1 / 2) 0 rfl (Or.inl rfl)).1

/-- C5. For a sphere light with radius > 0, a shading point at distance
d > 0 and any pair of uniform inputs, the pdf written equals
`localPdf / radius² * cosVal / d²` with `cosVal = dot(-direction, worldDir)`
and `direction = normalize(worldDir * radius + lightCenter - p)` the direction
written, provided `worldDir` is a unit vector and normalising a unit vector
returns it (the code takes the dot product with the normalised `worldDir`). -/
theorem Sample_pdf_formula (ext : Externals) (light : Hd_USTC_CG_Light)
    (pos dir : GfVec3f) (pdf : Option ℚ) (uniform_float : ℕ → ℚ) (calls : ℕ)
    (hs : light._lightType = LightType.sphereLight)
    (hr : 0 < light.radius) (hd : 0 < distance ext light pos)
    (hnorm : ∀ v : GfVec3f, GfDot v v = 1 → ext.GetNormalized v = v)
    (hw : GfDot (worldSampledDir ext light pos (uniform_float calls) (uniform_float (calls + 1)))
      (worldSampledDir ext light pos (uniform_float calls) (uniform_float (calls + 1))) = 1) :
    (Sample ext light pos dir pdf uniform_float calls).dir =
        ext.GetNormalized
          (worldSampledDir ext light pos (uniform_float calls) (uniform_float (calls + 1)) *
            light.radius + lightPos3 light - pos) ∧
      (Sample ext light pos dir pdf uniform_float calls).sample_light_pdf =
        some ((ext.UniformSampleHemiSphere (uniform_float calls) (uniform_float (calls + 1))).2 /
          light.radius ^ 2 *
          GfDot (-(Sample ext light pos dir pdf uniform_float calls).dir)
            (worldSampledDir ext light pos (uniform_float calls) (uniform_float (calls + 1))) /
          distance ext light pos ^ 2) := by
  have hdir := (Sample_sphere_dir ext light pos dir pdf uniform_float calls hs).1
  refine ⟨hdir, ?_⟩
  rw [Sample_sphere_pdf_finite ext light pos dir pdf uniform_float calls hs
    (ne_of_gt hr) (ne_of_gt hd), hdir]
  have hcos : cosVal ext light pos (uniform_float calls) (uniform_float (calls + 1)) =
      GfDot (-(sampledDirection ext light pos (uniform_float calls) (uniform_float (calls + 1))))
        (worldSampledDir ext light pos (uniform_float calls) (uniform_float (calls + 1))) := by
    unfold cosVal
    rw [hnorm _ hw]
  rw [hcos, pdf_expr_eq]
  rfl

/-- The sphere light of radius 5 seen from (0,0,6) with uniform inputs
(1/2, 1/2): `worldDir` is the unit vector (4/5, 0, 3/5). -/
theorem Sample_pdf_formula_witness :
    (Sample refExt sphere5 ⟨0, 0, 6⟩ ⟨0, 0, 0⟩ (some 0) (fun _ => 1 / 2) 0).sample_light_pdf =
      some ((refExt.UniformSampleHemiSphere (1 / 2) (1 / 2)).2 / sphere5.radius ^ 2 *
        GfDot (-(Sample refExt sphere5 ⟨0, 0, 6⟩ ⟨0, 0, 0⟩ (some 0) (fun _ => 1 / 2) 0).dir)
          (worldSampledDir refExt sphere5 ⟨0, 0, 6⟩ (1 / 2) (1 / 2)) /
        distance refExt sphere5 ⟨0, 0, 6⟩ ^ 2) :=
  (Sample_pdf_formula refExt sphere5 ⟨0, 0, 6⟩ ⟨0, 0, 0⟩ (some 0) (fun _ => 1 / 2) 0 rfl
    (by norm_num [sphere5])
    (by norm_num [distance, distanceVec, lightPos3, refExt, sphere5, refGetLength, GfDot,
      Rat.sqrt])
    refGetNormalized_unit
    (by norm_num [worldSampledDir, distanceVec, lightPos3, refExt, sphere5, refGetLength,
      GfDot, Rat.sqrt, refGetNormalized, refConstructONB, refUniformSampleHemiSphere,
      GF_MIN_VECTOR_LENGTH])).2

/-- C6. For a sphere light with radius > 0 and emitted colour c, a shading
point at distance d > 0 and any pair of uniform inputs, the radiance returned
is (0,0,0) when `cosVal < 0` and otherwise `(c / (4π radius²)) * cosVal / d² / π`
component-wise; it is component-wise non-negative whenever c is. -/
theorem Sample_radiance_formula (ext : Externals) (light : Hd_USTC_CG_Light)
    (pos dir : GfVec3f) (pdf : Option ℚ) (uniform_float : ℕ → ℚ) (calls : ℕ)
    (hs : light._lightType = LightType.sphereLight)
    (hr : 0 < light.radius) (hd : 0 < distance ext light pos) :
    (Sample ext light pos dir pdf uniform_float calls).color =
        some (if cosVal ext light pos (uniform_float calls) (uniform_float (calls + 1)) < 0
          then ⟨0, 0, 0⟩
          else
            ⟨light.params.diffuse.x / (4 * M_PI * light.radius ^ 2) *
                cosVal ext light pos (uniform_float calls) (uniform_float (calls + 1)) /
                distance ext light pos ^ 2 / M_PI,
              light.params.diffuse.y / (4 * M_PI * light.radius ^ 2) *
                cosVal ext light pos (uniform_float calls) (uniform_float (calls + 1)) /
                distance ext light pos ^ 2 / M_PI,
              light.params.diffuse.z / (4 * M_PI * light.radius ^ 2) *
                cosVal ext light pos (uniform_float calls) (uniform_float (calls + 1)) /
                distance ext light pos ^ 2 / M_PI⟩) ∧
      (0 ≤ light.params.diffuse.x → 0 ≤ light.params.diffuse.y →
        0 ≤ light.params.diffuse.z →
        ∃ v : GfVec3f, (Sample ext light pos dir pdf uniform_float calls).color = some v ∧
          0 ≤ v.x ∧ 0 ≤ v.y ∧ 0 ≤ v.z) := by
  have hpi := M_PI_pos
  have key : ∀ a c : ℚ,
      a / (4 * M_PI * light.radius * light.radius) * c / distance ext light pos /
          distance ext light pos / M_PI =
        a / (4 * M_PI * light.radius ^ 2) * c / distance ext light pos ^ 2 / M_PI := by
    intro a c
    rw [div_div (a / (4 * M_PI * light.radius * light.radius) * c), sq, sq, mul_assoc (4 * M_PI)]
  by_cases hc : cosVal ext light pos (uniform_float calls) (uniform_float (calls + 1)) < 0
  · have hcol : (Sample ext light pos dir pdf uniform_float calls).color =
        some ⟨0, 0, 0⟩ := by
      rw [Sample_sphere_color ext light pos dir pdf uniform_float calls hs, if_pos hc]
      rfl
    refine ⟨by rw [hcol, if_pos hc], fun _ _ _ => ⟨_, hcol, ?_⟩⟩
    exact ⟨le_refl _, le_refl _, le_refl _⟩
  · have hcol := Sample_sphere_color_finite ext light pos dir pdf uniform_float calls hs
      (ne_of_gt hr) (ne_of_gt hd) hc
    rw [key, key, key] at hcol
    have hc0 : 0 ≤ cosVal ext light pos (uniform_float calls) (uniform_float (calls + 1)) :=
      not_lt.mp hc
    refine ⟨by rw [hcol, if_neg hc]; rfl, fun hx hy hz => ⟨_, hcol, ?_, ?_, ?_⟩⟩
    · have hx0 : 0 ≤ (powerIntotal light).x := hx
      positivity
    · have hy0 : 0 ≤ (powerIntotal light).y := hy
      positivity
    · have hz0 : 0 ≤ (powerIntotal light).z := hz
      positivity

/-- The sphere light of radius 5 seen from (0,0,6) with uniform inputs
(1/2, 1/2): a back-facing sample, whose radiance is (0,0,0). -/
theorem Sample_radiance_formula_witness :
    ∃ v : GfVec3f,
      (Sample refExt sphere5 ⟨0, 0, 6⟩ ⟨0, 0, 0⟩ (some 0) (fun _ => 1 / 2) 0).color = some v ∧
        0 ≤ v.x ∧ 0 ≤ v.y ∧ 0 ≤ v.z :=
  (Sample_radiance_formula refExt sphere5 ⟨0, 0, 6⟩ ⟨0, 0, 0⟩ (some 0) (fun _ => 1 / 2) 0 rfl
    (by norm_num [sphere5])
    (by norm_num [distance, distanceVec, lightPos3, refExt, sphere5, refGetLength, GfDot,
      Rat.sqrt])).2
    (by norm_num [sphere5]) (by norm_num [sphere5]) (by norm_num [sphere5])

/-- C8. For a light whose type is not the sphere light, `Sample` returns the
colour (1, 0, 1), makes no call to the uniform supplier, and leaves `dir` and
`sample_light_pdf` with the contents the caller passed in. -/
theorem Sample_nonsphere (ext : Externals) (light : Hd_USTC_CG_Light)
    (pos dir : GfVec3f) (pdf : Option ℚ) (uniform_float : ℕ → ℚ) (calls : ℕ)
    (hs : light._lightType ≠ LightType.sphereLight) :
    Sample ext light pos dir pdf uniform_float calls =
      { color := some ⟨1, 0, 1⟩, dir := dir, sample_light_pdf := pdf, calls := calls } := by
  unfold Sample
  rw [if_neg hs]

/-- A rect light: the colour (1, 0, 1), outputs and call count untouched. -/
theorem Sample_nonsphere_witness :
    Sample refExt rect0 ⟨0, 0, 6⟩ ⟨1, 2, 3⟩ (some 7) (fun _ => 1 / 2) 4 =
      { color := some ⟨1, 0, 1⟩, dir := ⟨1, 2, 3⟩, sample_light_pdf := some 7, calls := 4 } :=
  Sample_nonsphere refExt rect0 ⟨0, 0, 6⟩ ⟨1, 2, 3⟩ (some 7) (fun _ => 1 / 2) 4 (by decide)

/-- C9. On the sphere path with radius > 0 and d > 0, if the pdf written
equals 0 then the radiance returned is (0,0,0), the hemisphere sampler's own
pdf being non-zero (section 4.2 fixes it at 1/(2π)). -/
theorem Sample_zero_pdf_zero_radiance (ext : Externals) (light : Hd_USTC_CG_Light)
    (pos dir : GfVec3f) (pdf : Option ℚ) (uniform_float : ℕ → ℚ) (calls : ℕ)
    (hs : light._lightType = LightType.sphereLight)
    (hr : 0 < light.radius) (hd : 0 < distance ext light pos)
    (hp : sample_pos_pdf ext (uniform_float calls) (uniform_float (calls + 1)) ≠ 0)
    (hz : (Sample ext light pos dir pdf uniform_float calls).sample_light_pdf = some 0) :
    (Sample ext light pos dir pdf uniform_float calls).color = some ⟨0, 0, 0⟩ := by
  have hr0 : light.radius ≠ 0 := ne_of_gt hr
  have hd0 : distance ext light pos ≠ 0 := ne_of_gt hd
  rw [Sample_sphere_pdf_finite ext light pos dir pdf uniform_float calls hs hr0 hd0] at hz
  have hq := Option.some.inj hz
  have hcos : cosVal ext light pos (uniform_float calls) (uniform_float (calls + 1)) = 0 := by
    rcases div_eq_zero_iff.mp hq with h | h
    · rcases div_eq_zero_iff.mp h with h | h
      · rcases mul_eq_zero.mp h with h | h
        · rcases div_eq_zero_iff.mp h with h | h
          · rcases div_eq_zero_iff.mp h with h | h
            · exact absurd h hp
            · exact absurd h hr0
          · exact absurd h hr0
        · exact h
      · exact absurd h hd0
    · exact absurd h hd0
  have hc : ¬ cosVal ext light pos (uniform_float calls) (uniform_float (calls + 1)) < 0 := by
    rw [hcos]; exact lt_irrefl 0
  rw [Sample_sphere_color_finite ext light pos dir pdf uniform_float calls hs hr0 hd0 hc, hcos]
  simp

/-- The sphere light of radius 3 seen from (0,0,5) with uniform inputs
(1/2, 1/2): the sampled surface point (12/5, 0, 9/5) is seen at grazing
incidence, `cosVal = 0`, the pdf written is 0 and the radiance is (0,0,0). -/
theorem Sample_zero_pdf_zero_radiance_witness :
    (Sample refExt sphere3 ⟨0, 0, 5⟩ ⟨0, 0, 0⟩ (some 0) (fun _ => 1 / 2) 0).sample_light_pdf =
        some 0 ∧
      (Sample refExt sphere3 ⟨0, 0, 5⟩ ⟨0, 0, 0⟩ (some 0) (fun _ => 1 / 2) 0).color =
        some ⟨0, 0, 0⟩ := by
  have hd : distance refExt sphere3 ⟨0, 0, 5⟩ = 5 := by
    norm_num [distance, distanceVec, lightPos3, refExt, sphere3, refGetLength, GfDot, Rat.sqrt]
  have hc : cosVal refExt sphere3 ⟨0, 0, 5⟩ (1 / 2) (1 / 2) = 0 := by
    norm_num [cosVal, sampledDirection, worldSampledDir, distanceVec, lightPos3, refExt,
      sphere3, refGetLength, GfDot, Rat.sqrt, refGetNormalized, refConstructONB,
      refUniformSampleHemiSphere, GF_MIN_VECTOR_LENGTH]
  have hz : (Sample refExt sphere3 ⟨0, 0, 5⟩ ⟨0, 0, 0⟩ (some 0) (fun _ => 1 / 2)
      0).sample_light_pdf = some 0 := by
    rw [Sample_sphere_pdf_finite refExt sphere3 ⟨0, 0, 5⟩ ⟨0, 0, 0⟩ (some 0) (fun _ => 1 / 2) 0
      rfl (by norm_num [sphere3]) (by rw [hd]; norm_num), hc]
    simp
  exact ⟨hz, Sample_zero_pdf_zero_radiance refExt sphere3 ⟨0, 0, 5⟩ ⟨0, 0, 0⟩ (some 0)
    (fun _ => 1 / 2) 0 rfl (by norm_num [sphere3]) (by rw [hd]; norm_num)
    (by norm_num [sample_pos_pdf, refExt, refUniformSampleHemiSphere, M_PI]) hz⟩

/-- C10. For a sphere light with radius > 0 and emitted colour c, a shading
point at distance d > 0 and uniform inputs with `cosVal > 0`, when the local
hemisphere pdf is 1/(2π) the pdf written is non-zero and the ratio of the
returned radiance to it is c / (2π) component-wise, whatever the radius, the
distance and the sampled direction. -/
theorem Sample_radiance_pdf_ratio (ext : Externals) (light : Hd_USTC_CG_Light)
    (pos dir : GfVec3f) (pdf : Option ℚ) (uniform_float : ℕ → ℚ) (calls : ℕ)
    (hs : light._lightType = LightType.sphereLight)
    (hr : 0 < light.radius) (hd : 0 < distance ext light pos)
    (hc : 0 < cosVal ext light pos (uniform_float calls) (uniform_float (calls + 1)))
    (hp : sample_pos_pdf ext (uniform_float calls) (uniform_float (calls + 1)) =
      1 / (2 * M_PI)) :
    ∃ (v : GfVec3f) (q : ℚ),
      (Sample ext light pos dir pdf uniform_float calls).color = some v ∧
      (Sample ext light pos dir pdf uniform_float calls).sample_light_pdf = some q ∧
      q ≠ 0 ∧
      v.x / q = light.params.diffuse.x / (2 * M_PI) ∧
      v.y / q = light.params.diffuse.y / (2 * M_PI) ∧
      v.z / q = light.params.diffuse.z / (2 * M_PI) := by
  have hpi := M_PI_pos
  have hr0 : light.radius ≠ 0 := ne_of_gt hr
  have hd0 : distance ext light pos ≠ 0 := ne_of_gt hd
  have hc0 : cosVal ext light pos (uniform_float calls) (uniform_float (calls + 1)) ≠ 0 :=
    ne_of_gt hc
  have hpi0 : M_PI ≠ 0 := ne_of_gt hpi
  have key : ∀ a r c d : ℚ, r ≠ 0 → c ≠ 0 → d ≠ 0 →
      a / (4 * M_PI * r * r) * c / d / d / M_PI / (1 / (2 * M_PI) / r / r * c / d / d) =
        a / (2 * M_PI) := by
    intro a r c d hr hc hd
    field_simp
    ring
  refine ⟨_, _, Sample_sphere_color_finite ext light pos dir pdf uniform_float calls hs hr0 hd0
      (not_lt.mpr (le_of_lt hc)),
    Sample_sphere_pdf_finite ext light pos dir pdf uniform_float calls hs hr0 hd0, ?_, ?_, ?_, ?_⟩
  · rw [hp]
    positivity
  · rw [hp]; exact key _ _ _ _ hr0 hc0 hd0
  · rw [hp]; exact key _ _ _ _ hr0 hc0 hd0
  · rw [hp]; exact key _ _ _ _ hr0 hc0 hd0

/-- The sphere light of radius 5 seen from (0,0,6) with uniform inputs (0, 0):
the sampled surface point is the pole (0,0,5), `cosVal = 1`, and the ratio of
radiance to pdf is 1 / (2π) in each component. -/
theorem Sample_radiance_pdf_ratio_witness :
    ∃ (v : GfVec3f) (q : ℚ),
      (Sample refExt sphere5 ⟨0, 0, 6⟩ ⟨0, 0, 0⟩ (some 0) (fun _ => 0) 0).color = some v ∧
      (Sample refExt sphere5 ⟨0, 0, 6⟩ ⟨0, 0, 0⟩ (some 0) (fun _ => 0) 0).sample_light_pdf =
        some q ∧
      q ≠ 0 ∧
      v.x / q = 1 / (2 * M_PI) ∧ v.y / q = 1 / (2 * M_PI) ∧ v.z / q = 1 / (2 * M_PI) :=
  Sample_radiance_pdf_ratio refExt sphere5 ⟨0, 0, 6⟩ ⟨0, 0, 0⟩ (some 0) (fun _ => 0) 0 rfl
    (by norm_num [sphere5])
    (by norm_num [distance, distanceVec, lightPos3, refExt, sphere5, refGetLength, GfDot,
      Rat.sqrt])
    (by norm_num [cosVal, sampledDirection, worldSampledDir, distanceVec, lightPos3, refExt,
      sphere5, refGetLength, GfDot, Rat.sqrt, refGetNormalized, refConstructONB,
      refUniformSampleHemiSphere, GF_MIN_VECTOR_LENGTH])
    rfl

/-! ## Claims about `Intersect` -/

/-- C2. For a sphere light `Intersect` returns `true` for every ray: the
boolean result of `ray.Intersect` is discarded, so a ray that misses the
sphere is reported as a hit as well, and `depth` receives whatever
`enterdistance` holds after the call. -/
theorem Intersect_sphere_returns_true (ext : Externals) (light : Hd_USTC_CG_Light)
    (ray : GfRay) (depth enterdistance : ℚ)
    (hs : light._lightType = LightType.sphereLight) :
    Intersect ext light ray depth enterdistance =
      { ret := some true,
        depth := (ext.GfRay_Intersect ray (lightPos3 light) light.radius enterdistance).2 } := by
  unfold Intersect
  rw [if_pos hs]
  rfl

/-- The sphere light of radius 5 at the origin and the ray from (7,0,-10)
along (0,0,1), parallel to the axis through the centre and offset by 7: the
ray-sphere equation has no root and the reference `GfRay::Intersect` reports
a miss, yet `Intersect` returns `true` and hands back the initial content of
`enterdistance`. -/
theorem Intersect_sphere_returns_true_witness :
    (∀ t : ℚ, ¬ IsRoot ⟨⟨7, 0, -10⟩, ⟨0, 0, 1⟩⟩ (lightPos3 sphere5) sphere5.radius t) ∧
      (refExt.GfRay_Intersect ⟨⟨7, 0, -10⟩, ⟨0, 0, 1⟩⟩ (lightPos3 sphere5) sphere5.radius 42).1 =
        false ∧
      Intersect refExt sphere5 ⟨⟨7, 0, -10⟩, ⟨0, 0, 1⟩⟩ 0 42 =
        { ret := some true, depth := 42 } := by
  refine ⟨?_, ?_, ?_⟩
  · intro t h
    simp only [IsRoot, GfRay.GetPoint, lightPos3, sphere5, GfDot, GfVec3f.add_def,
      GfVec3f.sub_def, GfVec3f.smul_def] at h
    nlinarith [sq_nonneg (t - 10)]
  · norm_num [refExt, refGfRay_Intersect, sphereQuadA, sphereQuadB, sphereQuadC, sphereDisc,
      lightPos3, sphere5, GfDot]
  · rw [Intersect_sphere_returns_true refExt sphere5 ⟨⟨7, 0, -10⟩, ⟨0, 0, 1⟩⟩ 0 42 rfl]
    norm_num [refExt, refGfRay_Intersect, sphereQuadA, sphereQuadB, sphereQuadC, sphereDisc,
      lightPos3, sphere5, GfDot]

/-- C3. For a light whose type is not the sphere light, control leaves
`Intersect` without a return statement: no value is returned, and `depth` is
left as passed in. -/
theorem Intersect_nonsphere_no_return (ext : Externals) (light : Hd_USTC_CG_Light)
    (ray : GfRay) (depth enterdistance : ℚ)
    (hs : light._lightType ≠ LightType.sphereLight) :
    Intersect ext light ray depth enterdistance = { ret := none, depth := depth } := by
  unfold Intersect
  rw [if_neg hs]

/-- A rect light and the ray from (0,0,-10) along (0,0,1): no value returned. -/
theorem Intersect_nonsphere_no_return_witness :
    (Intersect refExt rect0 ⟨⟨0, 0, -10⟩, ⟨0, 0, 1⟩⟩ 3 42).ret = none ∧
      (Intersect refExt rect0 ⟨⟨0, 0, -10⟩, ⟨0, 0, 1⟩⟩ 3 42).ret ≠ some false := by
  rw [Intersect_nonsphere_no_return refExt rect0 ⟨⟨0, 0, -10⟩, ⟨0, 0, 1⟩⟩ 3 42 (by decide)]
  exact ⟨rfl, by simp⟩

/-- C7. For a sphere light of radius r > 0 and a ray of unit direction whose
origin lies at distance d > r from the light centre and whose direction
points exactly at the centre, `Intersect` returns `true` and writes
`depth = d - r`, the nearest non-negative root of the ray-sphere equation.
`GfRay::Intersect`, which light.cpp calls to obtain the distance, is the
model `refGfRay_Intersect`; the other external functions are arbitrary. -/
theorem Intersect_aimed_at_centre (ext : Externals) (light : Hd_USTC_CG_Light)
    (ray : GfRay) (depth enterdistance d : ℚ)
    (hs : light._lightType = LightType.sphereLight)
    (hr : 0 < light.radius) (hdr : light.radius < d)
    (hunit : GfDot ray.direction ray.direction = 1)
    (haim : lightPos3 light = ray.GetPoint d) :
    Intersect { ext with GfRay_Intersect := refGfRay_Intersect } light ray depth
        enterdistance =
      { ret := some true, depth := d - light.radius } ∧
    IsNearestRoot ray (lightPos3 light) light.radius (d - light.radius) := by
  have hA : sphereQuadA ray = 1 := hunit
  have hB : sphereQuadB ray (lightPos3 light) = -(2 * d) := by
    rw [haim]
    simp only [sphereQuadB, GfRay.GetPoint, GfDot, GfVec3f.add_def, GfVec3f.sub_def,
      GfVec3f.smul_def] at hunit ⊢
    linear_combination (-2 * d) * hunit
  have hC : sphereQuadC ray (lightPos3 light) light.radius =
      d * d - light.radius * light.radius := by
    rw [haim]
    simp only [sphereQuadC, GfRay.GetPoint, GfDot, GfVec3f.add_def, GfVec3f.sub_def,
      GfVec3f.smul_def] at hunit ⊢
    linear_combination (d * d) * hunit
  have hD : sphereDisc ray (lightPos3 light) light.radius =
      2 * light.radius * (2 * light.radius) := by
    unfold sphereDisc
    rw [hA, hB, hC]
    ring
  have hsqrt : Rat.sqrt (sphereDisc ray (lightPos3 light) light.radius) = 2 * light.radius := by
    rw [hD, Rat.sqrt_eq, abs_of_pos (by linarith)]
  have hcond : ¬ (sphereQuadA ray = 0 ∨ sphereDisc ray (lightPos3 light) light.radius < 0) := by
    rw [hA, hD]
    rintro (h | h)
    · exact one_ne_zero h
    · nlinarith [mul_self_nonneg (2 * light.radius)]
  have ht0 : (-sphereQuadB ray (lightPos3 light) -
      Rat.sqrt (sphereDisc ray (lightPos3 light) light.radius)) / (2 * sphereQuadA ray) =
      d - light.radius := by
    rw [hsqrt, hA, hB]
    ring
  have hval : refGfRay_Intersect ray (lightPos3 light) light.radius enterdistance =
      (true, d - light.radius) := by
    simp only [refGfRay_Intersect]
    rw [if_neg hcond, ht0, if_pos (by linarith)]
  have hres : Intersect { ext with GfRay_Intersect := refGfRay_Intersect } light ray depth
      enterdistance = { ret := some true, depth := d - light.radius } := by
    rw [Intersect_sphere_eq _ light ray depth enterdistance hs]
    simp only [hval]
  refine ⟨hres, ?_⟩
  have hnear := (refGfRay_Intersect_contract ray (lightPos3 light) light.radius enterdistance
    (by rw [hA]; exact one_ne_zero) (fun _ => by rw [hsqrt, hD])).1
  rw [hval] at hnear
  exact hnear rfl

/-- The sphere light of radius 5 at the origin and the ray from (0,0,-8)
along (0,0,1), aimed at the centre from distance 8: the roots are 3 and 13,
and `Intersect` returns `true` with `depth = 8 - 5`. -/
theorem Intersect_aimed_at_centre_witness :
    Intersect refExt sphere5 ⟨⟨0, 0, -8⟩, ⟨0, 0, 1⟩⟩ 0 42 =
      { ret := some true, depth := 8 - sphere5.radius } :=
  (Intersect_aimed_at_centre refExt sphere5 ⟨⟨0, 0, -8⟩, ⟨0, 0, 1⟩⟩ 0 42 8 rfl
    (by norm_num [sphere5]) (by norm_num [sphere5]) (by norm_num [GfDot])
    (by norm_num [lightPos3, sphere5, GfRay.GetPoint])).1

end USTC_CG
